import Mathlib

/-!
Verification development for the CallGuard repository.

The definitions below are shallow embeddings of the JavaScript/TypeScript
sources:

* `EnhancedAudioProcessor` (real-time feature extraction, call detection,
  risk scoring, WAV encoding) from the compiled extension sources;
* `CommunicationService` (WebSocket session channel) from
  `extension/src/communicationService.ts`;
* the popup risk-level mapping from `extension/popup.js`.

JavaScript numbers are idealised as exact rationals (`ℚ`); `Math.sqrt` is
idealised as `Real.sqrt` on the rational radicand.  Byte buffers
(`Uint8Array`) are lists of naturals.  Stateful code is modelled by explicit
state records and step functions; observable effects (messages written to the
socket, `console.warn` calls, `setTimeout` registrations, `new WebSocket`
constructions) are recorded in instrumentation fields of the state.
-/

namespace CallGuard

/-! ### Feature vectors and persuasion cues (data model) -/

/-- The `FeatureVector` produced by `extractRealTimeFeatures`
(`EnhancedAudioProcessor`): spectral centroid, rolloff, flux, rms,
zero-crossing rate, energy, timestamp. -/
structure FeatureVector where
  spectralCentroid : ℚ
  spectralRolloff : ℚ
  spectralFlux : ℚ
  rms : ℚ
  zeroCrossingRate : ℚ
  energy : ℚ
  timestamp : ℕ
deriving Repr, DecidableEq

/-- The persuasion-cue record produced by
`RealTimePersuasionDetector.analyzeStream`. -/
structure PersuasionCues where
  detected : Bool
  urgency : Bool
  authority : Bool
  socialProof : Bool
  reciprocity : Bool
  commitment : Bool
  liking : Bool
  confidence : ℚ
  timestamp : ℕ
deriving Repr, DecidableEq

/-! ### Risk scorer (`EnhancedAudioProcessor.calculateRealTimeRisk`) -/

/-- Translation of `calculateRealTimeRisk(features, persuasionCues)`:
`riskScore` starts at 0, each matching condition adds its weight, and the
result is `Math.min(100, riskScore)`. -/
def calculateRealTimeRisk (features : FeatureVector) (cues : PersuasionCues) : ℚ :=
  let riskScore : ℚ := 0
  let riskScore := if features.spectralFlux > 50 then riskScore + 15 else riskScore
  let riskScore := if features.rms > 0.8 then riskScore + 10 else riskScore
  let riskScore := if features.zeroCrossingRate > 0.3 then riskScore + 10 else riskScore
  let riskScore := if cues.urgency then riskScore + 25 else riskScore
  let riskScore := if cues.authority then riskScore + 20 else riskScore
  let riskScore := if cues.socialProof then riskScore + 15 else riskScore
  let riskScore := if cues.reciprocity then riskScore + 15 else riskScore
  let riskScore := if cues.commitment then riskScore + 10 else riskScore
  let riskScore := if cues.liking then riskScore + 10 else riskScore
  min 100 riskScore

/-- Specification-side reading of the same scorer: the sum of the nine
independent contributions listed in the spec (before clamping). -/
def riskWeightSum (features : FeatureVector) (cues : PersuasionCues) : ℚ :=
  (if features.spectralFlux > 50 then (15 : ℚ) else 0)
    + (if features.rms > 0.8 then 10 else 0)
    + (if features.zeroCrossingRate > 0.3 then 10 else 0)
    + (if cues.urgency then 25 else 0)
    + (if cues.authority then 20 else 0)
    + (if cues.socialProof then 15 else 0)
    + (if cues.reciprocity then 15 else 0)
    + (if cues.commitment then 10 else 0)
    + (if cues.liking then 10 else 0)

/-- Translation of `updateRiskScore` in `extension/popup.js`: the displayed
level is `CRITICAL` for scores ≥ 80, `HIGH` for ≥ 60, `MEDIUM` for ≥ 30 and
`LOW` otherwise. -/
def updateRiskScoreLevel (score : ℚ) : String :=
  if score ≥ 80 then "CRITICAL"
  else if score ≥ 60 then "HIGH"
  else if score ≥ 30 then "MEDIUM"
  else "LOW"

/-! ### Feature extraction (`EnhancedAudioProcessor.calculate*`)

Inputs are the `Uint8Array` buffers delivered by the analyser node
(`getByteFrequencyData` / `getByteTimeDomainData`), modelled as lists of
naturals in `[0, 255]`.  A time-domain byte `v` encodes the normalized sample
`(v - 128) / 128`, so digital silence is the all-`128` buffer.  Divisions are
exact rational divisions with Lean's `x / 0 = 0` convention for the degenerate
empty-buffer cases. -/

/-- Translation of `calculateSpectralFlux(currentData, previousData)`: `0`
when `previousData` is `null` (first frame), otherwise the Euclidean distance
between the two magnitude vectors (indexing `previousData` out of range reads
as 0). -/
noncomputable def calculateSpectralFlux (currentData : List ℕ) (previousData : Option (List ℕ)) : ℝ :=
  match previousData with
  | none => 0
  | some prev =>
    Real.sqrt (((List.range currentData.length).map
      (fun i => ((currentData.getD i 0 : ℚ) - (prev.getD i 0 : ℚ)) ^ 2)).sum : ℚ)

/-- Translation of `calculateRMS(timeData)`: bytes are normalized to
`[-1, 1]` via `(v - 128) / 128`, squared, summed, divided by the length and
square-rooted. -/
noncomputable def calculateRMS (timeData : List ℕ) : ℝ :=
  Real.sqrt ((((timeData.map (fun (v : ℕ) => (((v : ℚ) - 128) / 128) ^ 2)).sum) / timeData.length : ℚ))

/-- Helper for `calculateZeroCrossingRate`: the number of adjacent pairs
`(previous, current)` whose centred values `v - 128` change sign, exactly as
in the source loop `for (let i = 1; i < timeData.length; i++)`. -/
def zeroCrossingCount : List ℕ → ℕ
  | a :: b :: rest =>
    (if ((b : ℤ) - 128 ≥ 0 ∧ (a : ℤ) - 128 < 0) ∨ ((b : ℤ) - 128 < 0 ∧ (a : ℤ) - 128 ≥ 0)
      then 1 else 0) + zeroCrossingCount (b :: rest)
  | _ => 0

/-- Translation of `calculateZeroCrossingRate(timeData)`: crossings divided by
`timeData.length - 1`. -/
def calculateZeroCrossingRate (timeData : List ℕ) : ℚ :=
  (zeroCrossingCount timeData : ℚ) / ((timeData.length : ℚ) - 1)

/-- Translation of `calculateEnergy(frequencyData)`: mean of the squared
magnitude bytes. -/
def calculateEnergy (frequencyData : List ℕ) : ℚ :=
  ((frequencyData.map (fun (v : ℕ) => (v : ℚ) * v)).sum) / frequencyData.length

/-! ### Call-context detection (`EnhancedAudioProcessor.analyzeCallCharacteristics`)

The sampling loop reads one summed frequency-byte energy per 100 ms tick; we
model the analysis of the collected window as a function of the list of
per-tick energies. -/

/-- The result record `{ isCall, confidence, participantCount }`. -/
structure CallCharacteristics where
  isCall : Bool
  confidence : ℚ
  participantCount : ℤ
deriving Repr, DecidableEq

/-- Accumulator of the sampling loop: `samples`, `totalEnergy`,
`varianceCount`, `lastEnergy`. -/
structure CallScan where
  samples : ℕ
  totalEnergy : ℚ
  varianceCount : ℕ
  lastEnergy : ℚ
deriving Repr, DecidableEq

/-- One iteration of the `setInterval` body: add the tick's energy, count a
variance event when `samples > 0` and `|energy - lastEnergy| > 100`. -/
def callScanStep (s : CallScan) (energy : ℚ) : CallScan :=
  { samples := s.samples + 1
    totalEnergy := s.totalEnergy + energy
    varianceCount :=
      if s.samples > 0 ∧ |energy - s.lastEnergy| > 100 then s.varianceCount + 1
      else s.varianceCount
    lastEnergy := energy }

/-- The loop state after consuming the whole observation window. -/
def callScan (energies : List ℚ) : CallScan :=
  energies.foldl callScanStep ⟨0, 0, 0, 0⟩

/-- Translation of the decision taken once 30 samples are collected:
`isCall = avgEnergy > 50 && varianceRatio > 0.3`,
`confidence = isCall ? min(0.9, 0.5 + varianceRatio * 0.4) : 0.1`,
`participantCount = isCall ? max(2, floor(avgEnergy / 30)) : 1`. -/
def analyzeCallCharacteristics (energies : List ℚ) : CallCharacteristics :=
  let s := callScan energies
  let avgEnergy := s.totalEnergy / (s.samples : ℚ)
  let varianceRatio := (s.varianceCount : ℚ) / (s.samples : ℚ)
  let isCall := decide (avgEnergy > 50) && decide (varianceRatio > 0.3)
  { isCall := isCall
    confidence := if isCall then min 0.9 (0.5 + varianceRatio * 0.4) else 0.1
    participantCount := if isCall then max 2 ⌊avgEnergy / 30⌋ else 1 }

/-! ### Session channel (`CommunicationService`, communicationService.ts)

The service is modelled as a state record.  Effects are instrumented:
`sentMessages` records the `type` of every message actually written with
`websocket.send`, `warnings` counts the `console.warn('WebSocket not ready…')`
branch of `sendMessage`, `pendingReconnects` holds the delays of the
`setTimeout` reconnect callbacks that are currently scheduled (in scheduling
order), `scheduledDelays` is the append-only log of every reconnect delay ever
scheduled, and `connectCalls` counts invocations of `connect()` (each of which
constructs a `new WebSocket`).  A `WebSocket`'s only relevant observable is
its `readyState` (`OPEN = 1`). -/

/-- A WebSocket handle; `readyState` follows the DOM numbering
(0 CONNECTING, 1 OPEN, 2 CLOSING, 3 CLOSED). -/
structure WebSock where
  readyState : ℕ
deriving Repr, DecidableEq

/-- The `CommunicationService` instance state. -/
structure ServiceState where
  websocket : Option WebSock
  sessionId : Option String
  isConnected : Bool
  reconnectAttempts : ℕ
  pendingReconnects : List ℕ
  scheduledDelays : List ℕ
  sentMessages : List String
  warnings : ℕ
  connectCalls : ℕ
deriving Repr, DecidableEq

/-- Translation of `maxReconnectAttempts = 5`. -/
def maxReconnectAttempts : ℕ := 5

/-- Translation of `reconnectDelay = 1000` (milliseconds). -/
def reconnectDelay : ℕ := 1000

/-- Translation of `generateSessionId()`: the template literal
`ext_${Date.now()}_${random}` with the clock and random suffix passed in
explicitly. -/
def generateSessionId (now : ℕ) (rand : String) : String :=
  "ext_" ++ toString now ++ "_" ++ rand

/-- The constructor: `this.sessionId = this.generateSessionId()`, every other
field at its declared initial value. -/
def mkService (now : ℕ) (rand : String) : ServiceState :=
  { websocket := none
    sessionId := some (generateSessionId now rand)
    isConnected := false
    reconnectAttempts := 0
    pendingReconnects := []
    scheduledDelays := []
    sentMessages := []
    warnings := 0
    connectCalls := 0 }

/-- Translation of `sendMessage(message)`: write when the socket exists and
`readyState === WebSocket.OPEN`, otherwise `console.warn` and drop. -/
def sendMessage (s : ServiceState) (msgType : String) : ServiceState :=
  match s.websocket with
  | some w =>
    if w.readyState = 1 then { s with sentMessages := s.sentMessages ++ [msgType] }
    else { s with warnings := s.warnings + 1 }
  | none => { s with warnings := s.warnings + 1 }

/-- Translation of `connect()` (success path of the WebSocket construction): a fresh socket
in the CONNECTING state replaces `this.websocket`; handlers are installed but
no state flags change until events fire. -/
def connect (s : ServiceState) : ServiceState :=
  { s with websocket := some ⟨0⟩, connectCalls := s.connectCalls + 1 }

/-- The `onopen` event: the socket transitions to OPEN, then the handler sets
`isConnected = true`, resets `reconnectAttempts = 0` and sends the
`session_start` message. -/
def openEvent (s : ServiceState) : ServiceState :=
  let s := { s with websocket := s.websocket.map (fun _ => ⟨1⟩) }
  let s := { s with isConnected := true, reconnectAttempts := 0 }
  sendMessage s "session_start"

/-- Translation of `attemptReconnect()`: below the maximum, increment the counter and
schedule `connect` with `setTimeout(…, reconnectDelay * reconnectAttempts)`;
at the maximum, only log. -/
def attemptReconnect (s : ServiceState) : ServiceState :=
  if s.reconnectAttempts < maxReconnectAttempts then
    let attempts := s.reconnectAttempts + 1
    { s with reconnectAttempts := attempts
             pendingReconnects := s.pendingReconnects ++ [reconnectDelay * attempts]
             scheduledDelays := s.scheduledDelays ++ [reconnectDelay * attempts] }
  else s

/-- The `onclose` event: the socket transitions to CLOSED, then the handler
sets `isConnected = false` and calls `attemptReconnect()`. -/
def closeEvent (s : ServiceState) : ServiceState :=
  let s := { s with websocket := s.websocket.map (fun _ => ⟨3⟩) }
  attemptReconnect { s with isConnected := false }

/-- A scheduled reconnect `setTimeout` callback fires: the earliest pending
timer is consumed and its callback invokes `this.connect()`.  With no pending
timer nothing happens. -/
def reconnectTimerFires (s : ServiceState) : ServiceState :=
  match s.pendingReconnects with
  | [] => s
  | _ :: rest => connect { s with pendingReconnects := rest }

/-- Translation of `disconnect()`: close and null the socket, clear `isConnected`.  The
source contains no `clearTimeout`, so `pendingReconnects` is left untouched. -/
def disconnect (s : ServiceState) : ServiceState :=
  { s with websocket := none, isConnected := false }

/-- Translation of `sendAudioChunk(audioChunk)`: throws `'Not connected to backend'` when
`!this.isConnected || !this.websocket`, otherwise builds the `audio_chunk`
message and forwards it to `sendMessage`. -/
def sendAudioChunk (s : ServiceState) : Except String ServiceState :=
  if !s.isConnected || s.websocket.isNone then .error "Not connected to backend"
  else .ok (sendMessage s "audio_chunk")

/-- Translation of `sendRiskScore(riskScore)`: same guard and shape as `sendAudioChunk`, with
message type `risk_score`. -/
def sendRiskScore (s : ServiceState) : Except String ServiceState :=
  if !s.isConnected || s.websocket.isNone then .error "Not connected to backend"
  else .ok (sendMessage s "risk_score")

/-- Translation of `sendSessionEnd()`: when `isConnected && websocket`, build the
`session_end` message and forward it to `sendMessage`; otherwise do nothing. -/
def sendSessionEnd (s : ServiceState) : ServiceState :=
  if s.isConnected && s.websocket.isSome then sendMessage s "session_end" else s

/-- Translation of `getSessionId()`. -/
def getSessionId (s : ServiceState) : Option String :=
  s.sessionId

/-- The operations and events a `CommunicationService` instance can undergo
after construction. -/
inductive Op where
  | connectCall : Op
  | openEv : Op
  | closeEv : Op
  | timerFire : Op
  | disconnectCall : Op
  | sendChunk : Op
  | sendScore : Op
  | sendEnd : Op
  | sendMsg : String → Op
deriving Repr, DecidableEq

/-- Apply one operation.  A thrown exception (`.error`) leaves the state
unchanged, as in the source where the guard throws before any mutation. -/
def applyOp (s : ServiceState) : Op → ServiceState
  | .connectCall => connect s
  | .openEv => openEvent s
  | .closeEv => closeEvent s
  | .timerFire => reconnectTimerFires s
  | .disconnectCall => disconnect s
  | .sendChunk => match sendAudioChunk s with | .ok s' => s' | .error _ => s
  | .sendScore => match sendRiskScore s with | .ok s' => s' | .error _ => s
  | .sendEnd => sendSessionEnd s
  | .sendMsg t => sendMessage s t

/-- Run a sequence of operations from a state. -/
def runOps (s : ServiceState) (ops : List Op) : ServiceState :=
  ops.foldl applyOp s

/-! ### Bulk capture (`EnhancedAudioProcessor.startCallRecording`)

The success path of `getUserMedia` is a parameter (`gumOk`): the only `throw`
in `startCallRecording` is the rethrow of a `getUserMedia` failure.  The
method never inspects any previously stored recorder; it unconditionally
constructs a fresh `MediaRecorder`, overwrites `this.mediaRecorder` with it,
starts it and returns it. -/

/-- A `MediaRecorder` handle with its `state` string. -/
structure MediaRec where
  state : String
deriving Repr, DecidableEq

/-- The recording-related state of an `EnhancedAudioProcessor` instance;
`startedCaptures` counts how many captures have been started. -/
structure ProcessorState where
  mediaRecorder : Option MediaRec
  startedCaptures : ℕ
deriving Repr, DecidableEq

/-- Translation of `startCallRecording()`: on microphone success, build a new
recorder, store it, call `start()` (its state becomes `recording`) and return
it; on microphone failure, log and rethrow. -/
def startCallRecording (gumOk : Bool) (p : ProcessorState) : Except String (ProcessorState × MediaRec) :=
  if gumOk then
    let recorder : MediaRec := ⟨"recording"⟩
    .ok ({ mediaRecorder := some recorder, startedCaptures := p.startedCaptures + 1 }, recorder)
  else .error "getUserMedia failed"

/-! ### WAV container encoding (`EnhancedAudioProcessor.audioBufferToWav`)

The `AudioBuffer` argument is modelled by its frame count (`length`), channel
count, sample rate and per-channel sample lists (`getChannelData`).  The
`DataView` writes at consecutive offsets are modelled by list concatenation in
offset order; 16-bit and 32-bit fields are little-endian byte lists. -/

/-- An `AudioBuffer`: `length` frames of `numberOfChannels` channels at
`sampleRate`, channel `c`'s samples being `channelData.getD c []`. -/
structure AudioBuffer where
  length : ℕ
  numberOfChannels : ℕ
  sampleRate : ℕ
  channelData : List (List ℚ)
deriving Repr, DecidableEq

/-- Translation of `setUint16(offset, n, true)`: two little-endian bytes. -/
def u16le (n : ℕ) : List ℕ :=
  [n % 256, n / 256 % 256]

/-- Translation of `setUint32(offset, n, true)`: four little-endian bytes. -/
def u32le (n : ℕ) : List ℕ :=
  [n % 256, n / 256 % 256, n / 65536 % 256, n / 16777216 % 256]

/-- Translation of `setInt16(offset, v, true)`: the two's-complement wrap of `v` to 16 bits,
stored as two little-endian bytes. -/
def i16le (v : ℤ) : List ℕ :=
  u16le (v % 65536).toNat

/-- Translation of `writeString(offset, string)`: the byte codes of the characters. -/
def writeString (str : String) : List ℕ :=
  str.toList.map Char.toNat

/-- The sample conversion inside the data loop: clamp to `[-1, 1]`, scale by
`0x8000` for negative values and `0x7FFF` otherwise, then truncate toward
zero (the `ToInt16` conversion applied by `setInt16`). -/
def quantizeSample (s : ℚ) : ℤ :=
  let sample := max (-1) (min 1 s)
  if sample < 0 then ⌈sample * 32768⌉ else ⌊sample * 32767⌋

/-- The interleaved sample stream of the data loop
`for (i < length) for (channel < numberOfChannels)`, reading
`buffer.getChannelData(channel)[i]` (out-of-range reads as 0). -/
def interleaved (b : AudioBuffer) : List ℚ :=
  (List.range b.length).flatMap
    (fun i => (List.range b.numberOfChannels).map
      (fun channel => (b.channelData.getD channel []).getD i 0))

/-- The 44 header bytes, written in offset order exactly as in the source:
RIFF chunk, format subchunk (PCM, channel count, sample rate, byte rate,
block align, 16 bits per sample), data subchunk. -/
def wavHeader (b : AudioBuffer) : List ℕ :=
  writeString "RIFF"
    ++ u32le (36 + b.length * b.numberOfChannels * 2)
    ++ writeString "WAVE"
    ++ writeString "fmt "
    ++ u32le 16
    ++ u16le 1
    ++ u16le b.numberOfChannels
    ++ u32le b.sampleRate
    ++ u32le (b.sampleRate * b.numberOfChannels * 2)
    ++ u16le (b.numberOfChannels * 2)
    ++ u16le 16
    ++ writeString "data"
    ++ u32le (b.length * b.numberOfChannels * 2)

/-- The data section: each interleaved sample quantized and stored as a
little-endian 16-bit integer. -/
def wavData (b : AudioBuffer) : List ℕ :=
  (interleaved b).flatMap (fun s => i16le (quantizeSample s))

/-- Translation of `audioBufferToWav(buffer)`: the returned `ArrayBuffer` as a
byte list. -/
def audioBufferToWav (b : AudioBuffer) : List ℕ :=
  wavHeader b ++ wavData b

/-- Modelled from the spec: the repository contains no WAV decoder (decoding
happens in the remote analysis service); this is the standard inverse read of
the container described in §4.6 — a little-endian signed 16-bit value per
sample after the 44-byte header. -/
def toSigned16 (n : ℕ) : ℤ :=
  if n < 32768 then (n : ℤ) else (n : ℤ) - 65536

/-- Modelled from the spec: dequantization of one 16-bit PCM value back to a
normalized sample, inverting the encoder's asymmetric scaling. -/
def dequantizeSample (v : ℤ) : ℚ :=
  if v < 0 then (v : ℚ) / 32768 else (v : ℚ) / 32767

/-- Modelled from the spec: read consecutive little-endian 16-bit PCM values
from a byte list and dequantize them. -/
def decodePcm16 : List ℕ → List ℚ
  | b0 :: b1 :: rest => dequantizeSample (toSigned16 (b0 + 256 * b1)) :: decodePcm16 rest
  | _ => []

/-- Modelled from the spec: decode a WAV byte stream — skip the 44-byte
header, then read the interleaved 16-bit PCM data. -/
def wavDecode (bytes : List ℕ) : List ℚ :=
  decodePcm16 (bytes.drop 44)

/-- The spec's example observation window for call detection: 30 energy
samples whose average is 60, with 12 of the 30 ticks showing an
adjacent-energy jump above 100 (variance ratio 0.4). -/
def exampleCallWindow : List ℚ :=
  [20, 220, 20, 220, 20, 220, 20, 220, 20, 220, 20, 220, 20,
   20, 20, 20, 20, 20, 20, 20, 20, 20, 20, 20, 20, 20, 20, 20, 20, 20]

/-! ## Theorems -/

/-- Rewriting step for accumulate-style conditionals: adding inside the
branch equals adding the branch's contribution. -/
theorem ite_add_shift (P : Prop) [Decidable P] (x a : ℚ) :
    (if P then x + a else x) = x + (if P then a else 0) := by
  split <;> simp

/-- C4: the risk scorer returns exactly the clamp to 100 of the sum of the
nine listed contributions (spectralFlux > 50 → +15, rms > 0.8 → +10,
zeroCrossingRate > 0.3 → +10, urgency +25, authority +20, socialProof +15,
reciprocity +15, commitment +10, liking +10), and its value lies in
`[0, 100]` for every feature vector and every combination of cue flags; in
particular the all-true/high input yields 100 and the all-false/low input
yields 0. -/
theorem risk_score_weighted_sum_in_range :
    (∀ f c, calculateRealTimeRisk f c = min 100 (riskWeightSum f c)) ∧
    (∀ f c, 0 ≤ calculateRealTimeRisk f c ∧ calculateRealTimeRisk f c ≤ 100) ∧
    calculateRealTimeRisk ⟨0, 0, 60, 0.9, 0.35, 0, 0⟩
      ⟨true, true, true, true, true, true, true, 0, 0⟩ = 100 ∧
    calculateRealTimeRisk ⟨0, 0, 0, 0, 0, 0, 0⟩
      ⟨false, false, false, false, false, false, false, 0, 0⟩ = 0 := by
  have hsum : ∀ f c, calculateRealTimeRisk f c = min 100 (riskWeightSum f c) := by
    intro f c
    simp only [calculateRealTimeRisk, riskWeightSum, ite_add_shift]
    congr 1
    ring
  have hnonneg : ∀ f c, 0 ≤ riskWeightSum f c := by
    intro f c
    unfold riskWeightSum
    repeat' apply add_nonneg
    all_goals split <;> norm_num
  refine ⟨hsum, fun f c => ⟨?_, ?_⟩, ?_, ?_⟩
  · rw [hsum]
    exact le_min (by norm_num) (hnonneg f c)
  · rw [hsum]
    exact min_le_left _ _
  · norm_num [calculateRealTimeRisk]
  · norm_num [calculateRealTimeRisk]

/-- C5: on the spec's example input (spectralFlux 60, rms 0.9,
zeroCrossingRate 0.35, urgency and authority true, all other cues false) the
risk scorer returns 15 + 10 + 10 + 25 + 20 = 80, and the popup level mapping
assigns 80 the critical level. -/
theorem risk_example_80_critical :
    calculateRealTimeRisk ⟨0, 0, 60, 0.9, 0.35, 0, 0⟩
      ⟨true, true, true, false, false, false, false, 0.7, 0⟩ = 80 ∧
    (80 : ℚ) = 15 + 10 + 10 + 25 + 20 ∧
    updateRiskScoreLevel 80 = "CRITICAL" := by
  refine ⟨?_, by norm_num, ?_⟩
  · norm_num [calculateRealTimeRisk]
  · norm_num [updateRiskScoreLevel]

/-- A silent buffer (every byte 128, i.e. every normalized sample 0) has no
zero crossings. -/
theorem zeroCrossingCount_silent (l : List ℕ) (hl : ∀ v ∈ l, v = 128) :
    zeroCrossingCount l = 0 := by
  induction l with
  | nil => rfl
  | cons a tl ih =>
    cases tl with
    | nil => rfl
    | cons b rest =>
      have ha : a = 128 := hl a (by simp)
      have hb : b = 128 := hl b (by simp)
      have hrest : zeroCrossingCount (b :: rest) = 0 := by
        apply ih
        intro v hv
        exact hl v (List.mem_cons_of_mem a hv)
      rw [zeroCrossingCount, hrest, ha, hb]
      norm_num

/-- C6: on silent input (every time-domain byte 128, i.e. every normalized
sample 0, and every frequency magnitude 0) the extractor yields rms = 0,
zeroCrossingRate = 0 and energy = 0; and on the first frame of a session
(`lastFrequencyData === null`) spectralFlux is 0 for every input. -/
theorem silent_features_zero :
    (∀ timeData : List ℕ, (∀ v ∈ timeData, v = 128) →
      calculateRMS timeData = 0 ∧ calculateZeroCrossingRate timeData = 0) ∧
    (∀ frequencyData : List ℕ, (∀ v ∈ frequencyData, v = 0) →
      calculateEnergy frequencyData = 0) ∧
    (∀ currentData : List ℕ, calculateSpectralFlux currentData none = 0) := by
  refine ⟨fun timeData h => ⟨?_, ?_⟩, fun frequencyData h => ?_, fun currentData => rfl⟩
  · have hsum : (timeData.map (fun (v : ℕ) => (((v : ℚ) - 128) / 128) ^ 2)).sum = 0 := by
      apply List.sum_eq_zero
      intro x hx
      obtain ⟨v, hv, rfl⟩ := List.mem_map.1 hx
      rw [h v hv]
      norm_num
    rw [calculateRMS, hsum]
    norm_num
  · rw [calculateZeroCrossingRate, zeroCrossingCount_silent timeData h]
    norm_num
  · have hsum : (frequencyData.map (fun (v : ℕ) => (v : ℚ) * v)).sum = 0 := by
      apply List.sum_eq_zero
      intro x hx
      obtain ⟨v, hv, rfl⟩ := List.mem_map.1 hx
      rw [h v hv]
      norm_num
    rw [calculateEnergy, hsum]
    norm_num

/-- Witness for C6 at the concrete silent buffers `[128, 128, 128]` and
`[0, 0]`, and an arbitrary first-frame input `[7, 200]`. -/
theorem silent_features_zero_witness :
    ((∀ v ∈ ([128, 128, 128] : List ℕ), v = 128) ∧
      calculateRMS [128, 128, 128] = 0 ∧ calculateZeroCrossingRate [128, 128, 128] = 0) ∧
    ((∀ v ∈ ([0, 0] : List ℕ), v = 0) ∧ calculateEnergy [0, 0] = 0) ∧
    calculateSpectralFlux [7, 200] none = 0 :=
  ⟨⟨by decide, silent_features_zero.1 [128, 128, 128] (by decide)⟩,
   ⟨by decide, silent_features_zero.2.1 [0, 0] (by decide)⟩,
   silent_features_zero.2.2 [7, 200]⟩

/-- C7: over any observation window, the detector declares a call exactly
when the average energy exceeds the floor 50 and the fraction of ticks with
an adjacent-energy jump above 100 exceeds 0.3; when active
confidence = min(0.9, 0.5 + varianceRatio·0.4) and
participants = max(2, ⌊avgEnergy/30⌋), otherwise confidence = 0.1 and
participants = 1.  On the spec's example window (avgEnergy 60, varianceRatio
0.4 over 30 samples) the result is isCall = true, confidence = 0.66,
participants = 2. -/
theorem call_detection_spec :
    (∀ energies : List ℚ,
      ((analyzeCallCharacteristics energies).isCall = true ↔
        (callScan energies).totalEnergy / ((callScan energies).samples : ℚ) > 50 ∧
          ((callScan energies).varianceCount : ℚ) / ((callScan energies).samples : ℚ) > 0.3) ∧
      (analyzeCallCharacteristics energies).confidence =
        (if (analyzeCallCharacteristics energies).isCall then
          min 0.9 (0.5 + ((callScan energies).varianceCount : ℚ) /
            ((callScan energies).samples : ℚ) * 0.4)
        else 0.1) ∧
      (analyzeCallCharacteristics energies).participantCount =
        (if (analyzeCallCharacteristics energies).isCall then
          max 2 ⌊(callScan energies).totalEnergy / ((callScan energies).samples : ℚ) / 30⌋
        else 1)) ∧
    callScan exampleCallWindow = ⟨30, 1800, 12, 20⟩ ∧
    analyzeCallCharacteristics exampleCallWindow = ⟨true, 0.66, 2⟩ := by
  have hscan : callScan exampleCallWindow = ⟨30, 1800, 12, 20⟩ := by
    norm_num [exampleCallWindow, callScan, callScanStep]
  refine ⟨fun energies => ⟨?_, rfl, rfl⟩, hscan, ?_⟩
  · simp [analyzeCallCharacteristics]
  · rw [analyzeCallCharacteristics, hscan]
    norm_num

/-- C1 counterexample: on a freshly constructed service (connection not
open: `isConnected` is false and there is no socket), `sendAudioChunk` and
`sendRiskScore` do NOT return normally — they throw
`'Not connected to backend'`, refuting the claim as stated. -/
theorem send_on_closed_throws :
    (mkService 0 "r").isConnected = false ∧
    (mkService 0 "r").websocket = none ∧
    sendAudioChunk (mkService 0 "r") = .error "Not connected to backend" ∧
    sendRiskScore (mkService 0 "r") = .error "Not connected to backend" :=
  ⟨rfl, rfl, rfl, rfl⟩

/-- C1 amended: the low-level `sendMessage` is a no-op-with-warning (never an
exception) whenever the socket is absent or not OPEN; `sendAudioChunk` and
`sendRiskScore`, however, throw `'Not connected to backend'` whenever
`isConnected` is false or the socket is null, and return normally without
sending (warning only) exactly in the remaining not-open case: `isConnected`
true and a socket present whose `readyState` is not OPEN. -/
theorem send_noop_warning_amended :
    (∀ (s : ServiceState) (t : String), s.websocket = none →
      sendMessage s t = { s with warnings := s.warnings + 1 }) ∧
    (∀ (s : ServiceState) (t : String) (w : WebSock),
      s.websocket = some w → w.readyState ≠ 1 →
      sendMessage s t = { s with warnings := s.warnings + 1 }) ∧
    (∀ s : ServiceState, s.isConnected = false →
      sendAudioChunk s = .error "Not connected to backend" ∧
      sendRiskScore s = .error "Not connected to backend") ∧
    (∀ s : ServiceState, s.websocket = none →
      sendAudioChunk s = .error "Not connected to backend" ∧
      sendRiskScore s = .error "Not connected to backend") ∧
    (∀ (s : ServiceState) (w : WebSock),
      s.isConnected = true → s.websocket = some w → w.readyState ≠ 1 →
      sendAudioChunk s = .ok { s with warnings := s.warnings + 1 } ∧
      sendRiskScore s = .ok { s with warnings := s.warnings + 1 }) := by
  refine ⟨?_, ?_, ?_, ?_, ?_⟩
  · intro s t h
    simp [sendMessage, h]
  · intro s t w hw hr
    simp [sendMessage, hw, hr]
  · intro s h
    simp [sendAudioChunk, sendRiskScore, h]
  · intro s h
    simp [sendAudioChunk, sendRiskScore, h]
  · intro s w hc hw hr
    simp [sendAudioChunk, sendRiskScore, sendMessage, hc, hw, hr]

/-- Witness for C1's amended statement: the fresh service (no socket) and a
connected service holding a CLOSED (`readyState = 3`) socket. -/
theorem send_noop_warning_amended_witness :
    ((mkService 0 "r").websocket = none ∧
      sendMessage (mkService 0 "r") "risk_score" =
        { mkService 0 "r" with warnings := (mkService 0 "r").warnings + 1 }) ∧
    ((mkService 0 "r").isConnected = false ∧
      sendAudioChunk (mkService 0 "r") = .error "Not connected to backend") ∧
    (sendAudioChunk { mkService 0 "r" with isConnected := true, websocket := some ⟨3⟩ } =
      .ok { mkService 0 "r" with isConnected := true, websocket := some ⟨3⟩, warnings := 1 }) :=
  ⟨⟨rfl, send_noop_warning_amended.1 (mkService 0 "r") "risk_score" rfl⟩,
   ⟨rfl, (send_noop_warning_amended.2.2.1 (mkService 0 "r") rfl).1⟩,
   (send_noop_warning_amended.2.2.2.2
      { mkService 0 "r" with isConnected := true, websocket := some ⟨3⟩ }
      ⟨3⟩ rfl rfl (by decide)).1⟩

/-- C2: the code evaluated at the claim's scenario — connect, open, one
unexpected close (which schedules a reconnect with a 1000 ms delay), then an
explicit `disconnect()` before the timer fires.  `disconnect` contains no
`clearTimeout`, so the pending timer survives it, and when it fires it
invokes `connect()`: a further connect attempt (a new WebSocket) occurs after
the explicit disconnect, contradicting the claim. -/
theorem disconnect_leaves_reconnect_pending :
    (disconnect (closeEvent (openEvent (connect (mkService 0 "r"))))).pendingReconnects = [1000] ∧
    (reconnectTimerFires
        (disconnect (closeEvent (openEvent (connect (mkService 0 "r")))))).connectCalls =
      (disconnect (closeEvent (openEvent (connect (mkService 0 "r"))))).connectCalls + 1 ∧
    (reconnectTimerFires
        (disconnect (closeEvent (openEvent (connect (mkService 0 "r")))))).websocket = some ⟨0⟩ := by
  refine ⟨rfl, rfl, rfl⟩

/-- The helper `sendMessage` never touches the reconnect counter or the log of
scheduled reconnect delays. -/
theorem sendMessage_keeps (s : ServiceState) (t : String) :
    (sendMessage s t).reconnectAttempts = s.reconnectAttempts ∧
    (sendMessage s t).scheduledDelays = s.scheduledDelays := by
  cases hw : s.websocket with
  | none => simp [sendMessage, hw]
  | some w => by_cases hr : w.readyState = 1 <;> simp [sendMessage, hw, hr]

/-- Explicit form of the close event. -/
theorem applyOp_closeEv_eq (s : ServiceState) :
    applyOp s Op.closeEv =
      if s.reconnectAttempts < maxReconnectAttempts then
        { s with websocket := s.websocket.map (fun _ => ⟨3⟩), isConnected := false,
                 reconnectAttempts := s.reconnectAttempts + 1,
                 pendingReconnects :=
                   s.pendingReconnects ++ [reconnectDelay * (s.reconnectAttempts + 1)],
                 scheduledDelays :=
                   s.scheduledDelays ++ [reconnectDelay * (s.reconnectAttempts + 1)] }
      else { s with websocket := s.websocket.map (fun _ => ⟨3⟩), isConnected := false } := by
  simp only [applyOp, closeEvent, attemptReconnect]

/-- Explicit form of the audio-chunk send operation (an exception leaves the
state unchanged). -/
theorem applyOp_sendChunk_eq (s : ServiceState) :
    applyOp s Op.sendChunk =
      if !s.isConnected || s.websocket.isNone then s else sendMessage s "audio_chunk" := by
  by_cases hg : (!s.isConnected || s.websocket.isNone) = true
  · simp only [applyOp, sendAudioChunk, if_pos hg]
  · simp only [applyOp, sendAudioChunk, if_neg hg]

/-- Explicit form of the risk-score send operation. -/
theorem applyOp_sendScore_eq (s : ServiceState) :
    applyOp s Op.sendScore =
      if !s.isConnected || s.websocket.isNone then s else sendMessage s "risk_score" := by
  by_cases hg : (!s.isConnected || s.websocket.isNone) = true
  · simp only [applyOp, sendRiskScore, if_pos hg]
  · simp only [applyOp, sendRiskScore, if_neg hg]

/-- Every operation except the close and open events leaves both the
reconnect counter and the log of scheduled delays unchanged. -/
theorem applyOp_keeps (s : ServiceState) (op : Op)
    (hop : op ≠ Op.openEv) (hcl : op ≠ Op.closeEv) :
    (applyOp s op).reconnectAttempts = s.reconnectAttempts ∧
    (applyOp s op).scheduledDelays = s.scheduledDelays := by
  cases op with
  | connectCall => exact ⟨rfl, rfl⟩
  | openEv => exact absurd rfl hop
  | closeEv => exact absurd rfl hcl
  | timerFire =>
    simp only [applyOp, reconnectTimerFires]
    cases s.pendingReconnects with
    | nil => exact ⟨rfl, rfl⟩
    | cons d rest => exact ⟨rfl, rfl⟩
  | disconnectCall => exact ⟨rfl, rfl⟩
  | sendChunk =>
    rw [applyOp_sendChunk_eq]
    split
    · exact ⟨rfl, rfl⟩
    · exact sendMessage_keeps s "audio_chunk"
  | sendScore =>
    rw [applyOp_sendScore_eq]
    split
    · exact ⟨rfl, rfl⟩
    · exact sendMessage_keeps s "risk_score"
  | sendEnd =>
    simp only [applyOp, sendSessionEnd]
    split
    · exact sendMessage_keeps s "session_end"
    · exact ⟨rfl, rfl⟩
  | sendMsg t => exact sendMessage_keeps s t

/-- Invariant preservation: any single operation other than a successful
open keeps the reconnect-attempt counter at or below 5 and keeps the
append-only log of scheduled reconnect delays equal to
`[reconnectDelay·1, …, reconnectDelay·reconnectAttempts]`. -/
theorem applyOp_reconnect_invariant (s : ServiceState) (op : Op) (hop : op ≠ Op.openEv)
    (h1 : s.reconnectAttempts ≤ 5)
    (h2 : s.scheduledDelays =
      (List.range' 1 s.reconnectAttempts).map (fun n => reconnectDelay * n)) :
    (applyOp s op).reconnectAttempts ≤ 5 ∧
    (applyOp s op).scheduledDelays =
      (List.range' 1 (applyOp s op).reconnectAttempts).map (fun n => reconnectDelay * n) := by
  by_cases hcl : op = Op.closeEv
  · subst hcl
    rw [applyOp_closeEv_eq]
    split
    · rename_i hlt
      constructor
      · have h5 : s.reconnectAttempts < 5 := hlt
        show s.reconnectAttempts + 1 ≤ 5
        omega
      · show s.scheduledDelays ++ [reconnectDelay * (s.reconnectAttempts + 1)] =
          (List.range' 1 (s.reconnectAttempts + 1)).map (fun n => reconnectDelay * n)
        rw [h2, List.range'_1_concat, List.map_append]
        simp [Nat.add_comm]
    · exact ⟨h1, h2⟩
  · obtain ⟨ha, hd⟩ := applyOp_keeps s op hop hcl
    rw [ha, hd]
    exact ⟨h1, h2⟩

/-- C3: for every post-construction execution containing no successful open
event, the service schedules at most 5 reconnect `setTimeout`s (a 6th is
never scheduled), and the n-th scheduled reconnect carries a delay of
n × 1000 ms (`reconnectDelay * reconnectAttempts` after the increment);
moreover a successful open resets the attempt counter to 0. -/
theorem reconnect_bounded_linear_backoff :
    (∀ (now : ℕ) (rand : String) (evs : List Op), (∀ e ∈ evs, e ≠ Op.openEv) →
      (runOps (mkService now rand) evs).scheduledDelays.length ≤ 5 ∧
      (runOps (mkService now rand) evs).scheduledDelays =
        (List.range' 1 (runOps (mkService now rand) evs).reconnectAttempts).map
          (fun n => reconnectDelay * n) ∧
      (runOps (mkService now rand) evs).reconnectAttempts ≤ 5) ∧
    (∀ s : ServiceState, (openEvent s).reconnectAttempts = 0) := by
  have hrun : ∀ (evs : List Op) (s : ServiceState), (∀ e ∈ evs, e ≠ Op.openEv) →
      s.reconnectAttempts ≤ 5 →
      s.scheduledDelays = (List.range' 1 s.reconnectAttempts).map (fun n => reconnectDelay * n) →
      (runOps s evs).reconnectAttempts ≤ 5 ∧
      (runOps s evs).scheduledDelays =
        (List.range' 1 (runOps s evs).reconnectAttempts).map (fun n => reconnectDelay * n) := by
    intro evs
    induction evs with
    | nil => exact fun s _ h1 h2 => ⟨h1, h2⟩
    | cons e rest ih =>
      intro s hor h1 h2
      have he : e ≠ Op.openEv := hor e (List.mem_cons_self e rest)
      have hstep := applyOp_reconnect_invariant s e he h1 h2
      exact ih (applyOp s e) (fun x hx => hor x (List.mem_cons_of_mem e hx)) hstep.1 hstep.2
  constructor
  · intro now rand evs hor
    have h := hrun evs (mkService now rand) hor (by norm_num [mkService]) rfl
    refine ⟨?_, h.2, h.1⟩
    rw [h.2, List.length_map, List.length_range']
    exact h.1
  · intro s
    have : (openEvent s).reconnectAttempts = 0 := by
      simp [openEvent, sendMessage]
      cases (s.websocket.map fun _ => (⟨1⟩ : WebSock)) with
      | none => rfl
      | some w => by_cases hr : w.readyState = 1 <;> simp [hr]
    exact this

/-- Witness for C3: seven consecutive unexpected closes on a fresh service
schedule exactly five reconnects, with delays 1000·1 … 1000·5. -/
theorem reconnect_bounded_linear_backoff_witness :
    (∀ e ∈ [Op.closeEv, Op.closeEv, Op.closeEv, Op.closeEv, Op.closeEv, Op.closeEv, Op.closeEv],
      e ≠ Op.openEv) ∧
    (runOps (mkService 0 "r")
      [Op.closeEv, Op.closeEv, Op.closeEv, Op.closeEv, Op.closeEv, Op.closeEv,
        Op.closeEv]).scheduledDelays.length ≤ 5 ∧
    (runOps (mkService 0 "r")
      [Op.closeEv, Op.closeEv, Op.closeEv, Op.closeEv, Op.closeEv, Op.closeEv,
        Op.closeEv]).scheduledDelays =
      (List.range' 1 (runOps (mkService 0 "r")
        [Op.closeEv, Op.closeEv, Op.closeEv, Op.closeEv, Op.closeEv, Op.closeEv,
          Op.closeEv]).reconnectAttempts).map (fun n => reconnectDelay * n) :=
  ⟨by decide,
   (reconnect_bounded_linear_backoff.1 0 "r" _ (by decide)).1,
   (reconnect_bounded_linear_backoff.1 0 "r" _ (by decide)).2.1⟩

/-- The helper `sendMessage` leaves `sessionId` unchanged. -/
theorem sendMessage_sessionId (s : ServiceState) (t : String) :
    (sendMessage s t).sessionId = s.sessionId := by
  cases hw : s.websocket with
  | none => simp [sendMessage, hw]
  | some w => by_cases hr : w.readyState = 1 <;> simp [sendMessage, hw, hr]

/-- Every operation leaves `sessionId` unchanged. -/
theorem applyOp_sessionId (s : ServiceState) (op : Op) :
    (applyOp s op).sessionId = s.sessionId := by
  cases op with
  | connectCall => rfl
  | openEv =>
    simp only [applyOp, openEvent]
    exact sendMessage_sessionId _ _
  | closeEv =>
    rw [applyOp_closeEv_eq]
    split <;> rfl
  | timerFire =>
    simp only [applyOp, reconnectTimerFires]
    cases s.pendingReconnects with
    | nil => rfl
    | cons d rest => rfl
  | disconnectCall => rfl
  | sendChunk =>
    rw [applyOp_sendChunk_eq]
    split
    · rfl
    · exact sendMessage_sessionId _ _
  | sendScore =>
    rw [applyOp_sendScore_eq]
    split
    · rfl
    · exact sendMessage_sessionId _ _
  | sendEnd =>
    simp only [applyOp, sendSessionEnd]
    split
    · exact sendMessage_sessionId _ _
    · rfl
  | sendMsg t => exact sendMessage_sessionId s t

/-- C10: the session id is a non-null string fixed at construction —
`getSessionId` returns `some (generateSessionId now rand)` on the fresh
instance and after every sequence of connects, events, reconnect timers,
disconnects and sends. -/
theorem sessionId_constant :
    ∀ (now : ℕ) (rand : String) (ops : List Op),
      getSessionId (mkService now rand) = some (generateSessionId now rand) ∧
      getSessionId (runOps (mkService now rand) ops) = some (generateSessionId now rand) := by
  have hrun : ∀ (ops : List Op) (s : ServiceState), (runOps s ops).sessionId = s.sessionId := by
    intro ops
    induction ops with
    | nil => exact fun s => rfl
    | cons e rest ih =>
      intro s
      calc (runOps (applyOp s e) rest).sessionId = (applyOp s e).sessionId := ih (applyOp s e)
        _ = s.sessionId := applyOp_sessionId s e
  intro now rand ops
  exact ⟨rfl, by rw [getSessionId, hrun ops (mkService now rand)]; rfl⟩

/-- C8: evaluating `startCallRecording` with a bulk capture already active —
for every processor state (including one whose stored recorder is still
`recording`) the call succeeds whenever the microphone is available: it never
fails with a `CaptureAlreadyActive` error, it starts a further capture and
overwrites the stored recorder handle.  In particular a second start from the
one-capture-active state returns `ok` with a second capture started. -/
theorem second_capture_starts_anyway :
    (∀ p : ProcessorState, startCallRecording true p =
      .ok ({ mediaRecorder := some ⟨"recording"⟩, startedCaptures := p.startedCaptures + 1 },
        ⟨"recording"⟩)) ∧
    startCallRecording true { mediaRecorder := some ⟨"recording"⟩, startedCaptures := 1 } =
      .ok ({ mediaRecorder := some ⟨"recording"⟩, startedCaptures := 2 }, ⟨"recording"⟩) :=
  ⟨fun _ => rfl, rfl⟩

/-- A flat map whose chunks all have length `c` has length `l.length * c`. -/
theorem flatMap_length_const {α β : Type} (l : List α) (f : α → List β) (c : ℕ)
    (h : ∀ a ∈ l, (f a).length = c) : (l.flatMap f).length = l.length * c := by
  induction l with
  | nil => simp
  | cons x xs ih =>
    rw [List.flatMap_cons, List.length_append, h x (List.mem_cons_self x xs),
      ih (fun a ha => h a (List.mem_cons_of_mem x ha))]
    simp [List.length_cons, Nat.succ_mul, Nat.add_comm]

/-- The interleaved stream holds `length * numberOfChannels` samples. -/
theorem interleaved_length (b : AudioBuffer) :
    (interleaved b).length = b.length * b.numberOfChannels := by
  unfold interleaved
  rw [flatMap_length_const _ _ b.numberOfChannels (fun i _ => by simp)]
  simp

/-- The header is exactly 44 bytes. -/
theorem wavHeader_length (b : AudioBuffer) : (wavHeader b).length = 44 := rfl

/-- C9 length part: the encoder output is 44 header bytes followed by
`length * numberOfChannels * 2` data bytes. -/
theorem audioBufferToWav_length (b : AudioBuffer) :
    (audioBufferToWav b).length = 44 + b.length * b.numberOfChannels * 2 := by
  unfold audioBufferToWav wavData
  rw [List.length_append, wavHeader_length,
    flatMap_length_const (interleaved b) (fun s => i16le (quantizeSample s)) 2 (fun s _ => rfl),
    interleaved_length]

/-- The quantized value of any sample fits in a signed 16-bit integer. -/
theorem quantizeSample_bounds (s : ℚ) :
    -32768 ≤ quantizeSample s ∧ quantizeSample s ≤ 32767 := by
  have hlb : (-1 : ℚ) ≤ max (-1) (min 1 s) := le_max_left _ _
  have hub : max (-1) (min 1 s) ≤ 1 := max_le (by norm_num) (min_le_left _ _)
  by_cases hneg : max (-1) (min 1 s) < 0
  · have hq : quantizeSample s = ⌈max (-1) (min 1 s) * 32768⌉ := by
      simp only [quantizeSample, if_pos hneg]
    rw [hq]
    constructor
    · have h1 : ((-32768 : ℤ) : ℚ) ≤ max (-1) (min 1 s) * 32768 := by push_cast; nlinarith
      have := Int.ceil_le_ceil h1
      rwa [Int.ceil_intCast] at this
    · have h2 : max (-1) (min 1 s) * 32768 ≤ ((0 : ℤ) : ℚ) := by push_cast; nlinarith
      have := Int.ceil_le.2 h2
      omega
  · push_neg at hneg
    have hq : quantizeSample s = ⌊max (-1) (min 1 s) * 32767⌋ := by
      simp only [quantizeSample, if_neg (not_lt.2 hneg)]
    rw [hq]
    constructor
    · have h1 : (0 : ℤ) ≤ ⌊max (-1) (min 1 s) * 32767⌋ := Int.floor_nonneg.2 (by nlinarith)
      omega
    · have h2 : max (-1) (min 1 s) * 32767 ≤ ((32767 : ℤ) : ℚ) := by push_cast; nlinarith
      have := Int.floor_le_floor h2
      rwa [Int.floor_intCast] at this

/-- Decoding two little-endian bytes written by `i16le` recovers the encoded
in-range value. -/
theorem decodePcm16_i16le (v : ℤ) (h1 : -32768 ≤ v) (h2 : v ≤ 32767) (rest : List ℕ) :
    decodePcm16 (i16le v ++ rest) = dequantizeSample v :: decodePcm16 rest := by
  show decodePcm16 ((v % 65536).toNat % 256 :: ((v % 65536).toNat / 256 % 256) :: rest) = _
  rw [decodePcm16]
  have hv : toSigned16 ((v % 65536).toNat % 256 + 256 * ((v % 65536).toNat / 256 % 256)) = v := by
    unfold toSigned16
    split <;> omega
  rw [hv]

/-- Decoding the concatenated quantized samples recovers each sample's
dequantized value. -/
theorem decodePcm16_encode (l : List ℚ) :
    decodePcm16 (l.flatMap (fun s => i16le (quantizeSample s))) =
      l.map (fun s => dequantizeSample (quantizeSample s)) := by
  induction l with
  | nil => rfl
  | cons x xs ih =>
    rw [List.flatMap_cons,
      decodePcm16_i16le _ (quantizeSample_bounds x).1 (quantizeSample_bounds x).2,
      List.map_cons, ih]

/-- C9 round-trip part, list form: decoding the encoder output yields the
dequantized quantization of every interleaved sample, in order. -/
theorem wavDecode_audioBufferToWav (b : AudioBuffer) :
    wavDecode (audioBufferToWav b) =
      (interleaved b).map (fun s => dequantizeSample (quantizeSample s)) := by
  unfold wavDecode audioBufferToWav
  rw [← wavHeader_length b, List.drop_left]
  exact decodePcm16_encode (interleaved b)

/-- C9 error-bound part: one quantize/dequantize round trip moves a sample in
`[-1, 1]` by at most one 16-bit quantization step. -/
theorem dequant_quant_close (s : ℚ) (h1 : -1 ≤ s) (h2 : s ≤ 1) :
    |dequantizeSample (quantizeSample s) - s| ≤ 1 / 32767 := by
  have hclamp : max (-1) (min 1 s) = s := by
    rw [min_eq_right h2, max_eq_right h1]
  unfold quantizeSample dequantizeSample
  rw [hclamp]
  by_cases hs : s < 0
  · rw [if_pos hs]
    have hle : s * 32768 ≤ (⌈s * 32768⌉ : ℚ) := Int.le_ceil _
    have hlt : ((⌈s * 32768⌉ : ℤ) : ℚ) < s * 32768 + 1 := Int.ceil_lt_add_one _
    by_cases hq : ⌈s * 32768⌉ < 0
    · rw [if_pos hq]
      have hqq : ((⌈s * 32768⌉ : ℤ) : ℚ) ≤ 0 := by exact_mod_cast le_of_lt hq
      rw [abs_le]
      constructor <;> nlinarith
    · rw [if_neg hq]
      push_neg at hq
      have hq0 : ⌈s * 32768⌉ = 0 := by
        have : ⌈s * 32768⌉ ≤ 0 := Int.ceil_le.2 (by push_cast; nlinarith)
        omega
      rw [hq0]
      have hslb : -1 / 32768 < s := by
        have := hlt
        rw [hq0] at this
        push_cast at this
        linarith
      rw [abs_le]
      constructor <;> [nlinarith; nlinarith]
  · rw [if_neg hs]
    push_neg at hs
    have hq0 : 0 ≤ ⌊s * 32767⌋ := Int.floor_nonneg.2 (by nlinarith)
    rw [if_neg (not_lt.2 hq0)]
    have hle : ((⌊s * 32767⌋ : ℤ) : ℚ) ≤ s * 32767 := Int.floor_le _
    have hlt : s * 32767 - 1 < ((⌊s * 32767⌋ : ℤ) : ℚ) := Int.sub_one_lt_floor _
    rw [abs_le]
    constructor <;> nlinarith

/-- Indexing into a flat map of constant-length chunks. -/
theorem flatMap_getD_const {α : Type} (c : ℕ) (xs : List α) (g : α → List ℚ)
    (hc : ∀ x ∈ xs, (g x).length = c) :
    ∀ (i j : ℕ) (hi : i < xs.length), j < c →
      (xs.flatMap g).getD (i * c + j) 0 = (g (xs.get ⟨i, hi⟩)).getD j 0 := by
  induction xs with
  | nil =>
    intro i j hi _
    exact absurd hi (Nat.not_lt_zero i)
  | cons x xs ih =>
    intro i j hi hj
    have hx : (g x).length = c := hc x (List.mem_cons_self x xs)
    cases i with
    | zero =>
      rw [List.flatMap_cons]
      show (g x ++ xs.flatMap g).getD (0 * c + j) 0 = _
      rw [Nat.zero_mul, Nat.zero_add]
      exact List.getD_append _ _ _ j (hx ▸ hj)
    | succ i' =>
      rw [List.flatMap_cons]
      have harith : (i' + 1) * c + j = (g x).length + (i' * c + j) := by
        rw [hx]; ring
      rw [harith, List.getD_append_right _ _ _ _ (Nat.le_add_right _ _),
        Nat.add_sub_cancel_left]
      have hi' : i' < xs.length := Nat.lt_of_succ_lt_succ hi
      exact ih (fun a ha => hc a (List.mem_cons_of_mem x ha)) i' j hi' hj

/-- Reading position `i * numberOfChannels + channel` of the interleaved
stream recovers frame `i` of channel `channel`. -/
theorem interleaved_getD (b : AudioBuffer) (i channel : ℕ)
    (hi : i < b.length) (hch : channel < b.numberOfChannels) :
    (interleaved b).getD (i * b.numberOfChannels + channel) 0 =
      (b.channelData.getD channel []).getD i 0 := by
  unfold interleaved
  have hlen : ∀ x ∈ List.range b.length,
      ((List.range b.numberOfChannels).map
        (fun channel => (b.channelData.getD channel []).getD x 0)).length = b.numberOfChannels := by
    intro x _
    simp
  have hi' : i < (List.range b.length).length := by simpa using hi
  rw [flatMap_getD_const b.numberOfChannels (List.range b.length) _ hlen i channel hi' hch]
  have hch' : channel < ((List.range b.numberOfChannels).map
      (fun ch => (b.channelData.getD ch []).getD ((List.range b.length).get ⟨i, hi'⟩) 0)).length := by
    simpa using hch
  rw [List.getD_eq_get _ _ hch', List.get_map]
  simp [List.get_range]

/-- Every `getD` read with default 0 is either the default or a list member. -/
theorem getD_zero_or_mem (l : List ℚ) (i : ℕ) : l.getD i 0 = 0 ∨ l.getD i 0 ∈ l := by
  by_cases h : i < l.length
  · right
    rw [List.getD_eq_get _ _ h]
    exact List.get_mem _ _ _
  · left
    exact List.getD_eq_default _ _ (Nat.le_of_not_lt h)

/-- C9: encoding a buffer whose samples lie in [-1, 1] yields exactly 44
header bytes followed by `length × channels × 2` little-endian data bytes,
and decoding the encoder's output reproduces every original sample within
one 16-bit quantization step (≤ 1/32767): as a list, the decode equals the
per-sample round trip of the interleaved stream, and at each frame/channel
position the decoded value differs from the original sample by at most
1/32767. -/
theorem wav_encode_length_roundtrip :
    (∀ b : AudioBuffer, (wavHeader b).length = 44) ∧
    (∀ b : AudioBuffer,
      (audioBufferToWav b).length = 44 + b.length * b.numberOfChannels * 2) ∧
    (∀ b : AudioBuffer, wavDecode (audioBufferToWav b) =
      (interleaved b).map (fun s => dequantizeSample (quantizeSample s))) ∧
    (∀ s : ℚ, -1 ≤ s → s ≤ 1 → |dequantizeSample (quantizeSample s) - s| ≤ 1 / 32767) ∧
    (∀ (b : AudioBuffer) (i channel : ℕ), i < b.length → channel < b.numberOfChannels →
      (∀ ch ∈ b.channelData, ∀ s ∈ ch, -1 ≤ s ∧ s ≤ 1) →
      |(wavDecode (audioBufferToWav b)).getD (i * b.numberOfChannels + channel) 0 -
        (b.channelData.getD channel []).getD i 0| ≤ 1 / 32767) := by
  refine ⟨wavHeader_length, audioBufferToWav_length, wavDecode_audioBufferToWav,
    dequant_quant_close, ?_⟩
  intro b i channel hi hch hrange
  set x : ℚ := (b.channelData.getD channel []).getD i 0 with hx
  have hxr : -1 ≤ x ∧ x ≤ 1 := by
    by_cases hcl : channel < b.channelData.length
    · have hmem : b.channelData.getD channel [] ∈ b.channelData := by
        rw [List.getD_eq_get _ _ hcl]
        exact List.get_mem _ _ _
      rcases getD_zero_or_mem (b.channelData.getD channel []) i with h0 | hsm
      · rw [hx, h0]
        norm_num
      · exact hrange _ hmem x hsm
    · have hdef : b.channelData.getD channel [] = [] :=
        List.getD_eq_default _ _ (Nat.le_of_not_lt hcl)
      rw [hx, hdef]
      norm_num
  have hpos : (wavDecode (audioBufferToWav b)).getD (i * b.numberOfChannels + channel) 0 =
      dequantizeSample (quantizeSample x) := by
    rw [wavDecode_audioBufferToWav b]
    have hlt : i * b.numberOfChannels + channel < (interleaved b).length := by
      rw [interleaved_length]
      calc i * b.numberOfChannels + channel
          < i * b.numberOfChannels + b.numberOfChannels := by omega
        _ = (i + 1) * b.numberOfChannels := by ring
        _ ≤ b.length * b.numberOfChannels := Nat.mul_le_mul_right _ hi
    have hlt' : i * b.numberOfChannels + channel <
        ((interleaved b).map (fun s => dequantizeSample (quantizeSample s))).length := by
      simpa using hlt
    rw [List.getD_eq_get _ _ hlt', List.get_map]
    congr 1
    rw [← List.getD_eq_get _ 0, interleaved_getD b i channel hi hch]
  rw [hpos]
  exact dequant_quant_close x hxr.1 hxr.2

/-- Witness for C9 at the sample value 1 and at frame 1 / channel 0 of the
concrete two-channel buffer `[[0, 1], [-1, 0]]`. -/
theorem wav_encode_length_roundtrip_witness :
    ((-1 : ℚ) ≤ 1 ∧ (1 : ℚ) ≤ 1 ∧
      |dequantizeSample (quantizeSample 1) - 1| ≤ 1 / 32767) ∧
    (1 < (AudioBuffer.mk 2 2 16000 [[0, 1], [-1, 0]]).length ∧
      0 < (AudioBuffer.mk 2 2 16000 [[0, 1], [-1, 0]]).numberOfChannels ∧
      (∀ ch ∈ (AudioBuffer.mk 2 2 16000 [[0, 1], [-1, 0]]).channelData,
        ∀ s ∈ ch, -1 ≤ s ∧ s ≤ 1) ∧
      |(wavDecode (audioBufferToWav (AudioBuffer.mk 2 2 16000 [[0, 1], [-1, 0]]))).getD
          (1 * (AudioBuffer.mk 2 2 16000 [[0, 1], [-1, 0]]).numberOfChannels + 0) 0 -
        ((AudioBuffer.mk 2 2 16000 [[0, 1], [-1, 0]]).channelData.getD 0 []).getD 1 0| ≤
        1 / 32767) :=
  ⟨⟨by decide, by decide,
    wav_encode_length_roundtrip.2.2.2.1 1 (by decide) (by decide)⟩,
   by decide, by decide, by decide,
   wav_encode_length_roundtrip.2.2.2.2 (AudioBuffer.mk 2 2 16000 [[0, 1], [-1, 0]]) 1 0
     (by decide) (by decide) (by decide)⟩

end CallGuard
